import Mathlib

/-!
# Verification of the rapier rigid-body core (2D configuration)

Shallow embedding of `src/dynamics/rigid_body.rs` and
`src/dynamics/solver/position_ground_constraint.rs` in the `dim2`
configuration of the crate: the f32 scalar type is modelled by the exact
reals, 2-vectors by a pair of reals, and a 2D rotation (a nalgebra
`UnitComplex`) by its accumulated angle, composition being addition of
angles.  `UnitComplex::angle()` returns the principal representative in
`(-π, π]`, modelled by `angleRep`.
-/

open Real

noncomputable section

namespace Rapier

/-- A 2-dimensional vector (nalgebra `Vector2<f32>` in the `dim2` build). -/
structure Vec2 where
  x : ℝ
  y : ℝ

namespace Vec2

def zero : Vec2 := ⟨0, 0⟩

def add (a b : Vec2) : Vec2 := ⟨a.x + b.x, a.y + b.y⟩

def sub (a b : Vec2) : Vec2 := ⟨a.x - b.x, a.y - b.y⟩

def neg (a : Vec2) : Vec2 := ⟨-a.x, -a.y⟩

def smul (s : ℝ) (a : Vec2) : Vec2 := ⟨s * a.x, s * a.y⟩

def dot (a b : Vec2) : ℝ := a.x * b.x + a.y * b.y

/-- Model of `norm_squared` of a nalgebra vector. -/
def normSq (a : Vec2) : ℝ := a.x ^ 2 + a.y ^ 2

/-- Model of `norm` of a nalgebra vector. -/
def norm (a : Vec2) : ℝ := Real.sqrt a.normSq

/-- The 2D `gcross` of two vectors (the scalar `a.x*b.y - a.y*b.x`). -/
def cross2 (a b : Vec2) : ℝ := a.x * b.y - a.y * b.x

instance : Add Vec2 := ⟨add⟩
instance : Sub Vec2 := ⟨sub⟩
instance : Neg Vec2 := ⟨neg⟩

end Vec2

/-- Rotation by angle `θ` applied to a vector: the action of the 2D rotation
(unit complex) `cos θ + i sin θ`. -/
def rotApply (θ : ℝ) (v : Vec2) : Vec2 :=
  ⟨Real.cos θ * v.x - Real.sin θ * v.y, Real.sin θ * v.x + Real.cos θ * v.y⟩

/-- A 2D isometry (nalgebra `Isometry2<f32>`): a rotation (stored as its
accumulated angle; the code stores the unit complex of that angle) followed
by a translation. -/
structure Iso2 where
  rotation : ℝ
  translation : Vec2

namespace Iso2

/-- Model of `Isometry::identity()`. -/
def identity : Iso2 := ⟨0, ⟨0, 0⟩⟩

/-- Application of an isometry to a point: `iso * point`. -/
def apply (iso : Iso2) (p : Vec2) : Vec2 :=
  rotApply iso.rotation p + iso.translation

/-- Composition of isometries: `comp a b` is the nalgebra product `a * b`,
so `(comp a b).apply p = a.apply (b.apply p)`. -/
def comp (a b : Iso2) : Iso2 :=
  ⟨a.rotation + b.rotation, rotApply a.rotation b.translation + a.translation⟩

/-- Model of `Isometry::inverse()`. -/
def inverse (iso : Iso2) : Iso2 :=
  ⟨-iso.rotation, rotApply (-iso.rotation) (-iso.translation)⟩

/-- Model of `Isometry::new(translation, angle)` (translation ∘ rotation). -/
def isoNew (t : Vec2) (angle : ℝ) : Iso2 := ⟨angle, t⟩

/-- Model of `Translation::from(v)` viewed as an isometry. -/
def ofTranslation (t : Vec2) : Iso2 := ⟨0, t⟩

end Iso2

/-- The principal representative in `(-π, π]` of an angle: the value
returned by `UnitComplex::angle()` (i.e. `atan2` of the stored complex) on
the rotation whose accumulated angle is `θ`. -/
def angleRep (θ : ℝ) : ℝ := θ - 2 * π * ⌈(θ - π) / (2 * π)⌉

/-! ## Data model of `src/dynamics/rigid_body.rs` (`dim2` configuration) -/

/-- Model of `utils::inv` (per the `RigidBody::mass` doc comment, it returns
zero for a zero inverse, i.e. for an infinite mass). -/
def utilsInv (x : ℝ) : ℝ := if x = 0 then 0 else x⁻¹

/-- Model of `f32::MAX`, i.e. `(2 - 2^-23) * 2^127`. -/
def f32Max : ℝ := 2 ^ 128 - 2 ^ 104

/-- Modelled from the spec: the external `MassProperties` collaborator
(from parry) "supplies inverse mass, inverse inertia, and local center of
mass for a body"; in 2D the inverse principal angular inertia is a scalar. -/
structure MassProperties where
  local_com : Vec2
  inv_mass : ℝ
  inv_principal_inertia_sqrt : ℝ

namespace MassProperties

/-- Model of `MassProperties::zero()`. -/
def zero : MassProperties := ⟨⟨0, 0⟩, 0, 0⟩

/-- Modelled from the spec: the world-space center of mass is the body-local
center of mass transported by the body's pose (the source itself uses
`self.position * self.mass_properties.local_com` for this value). -/
def world_com (mp : MassProperties) (pos : Iso2) : Vec2 :=
  pos.apply mp.local_com

/-- Modelled from the spec: in 2D the inverse angular inertia is a scalar,
invariant under the rotation argument. -/
def world_inv_inertia_sqrt (mp : MassProperties) (_rotation : ℝ) : ℝ :=
  mp.inv_principal_inertia_sqrt

end MassProperties

/-- Model of `BodyStatus`. -/
inductive BodyStatus where
  | Dynamic
  | Static
  | Kinematic
deriving DecidableEq

/-- Model of the `RigidBodyFlags` bitflags as individual booleans. -/
structure RigidBodyFlags where
  translation_locked : Bool
  rotation_locked_z : Bool
  ccd_enabled : Bool
  ccd_active : Bool

/-- Model of `RigidBodyFlags::empty()`. -/
def RigidBodyFlags.emptyFlags : RigidBodyFlags := ⟨false, false, false, false⟩

/-- Model of the `RigidBodyChanges` bitflags as individual booleans. -/
structure RigidBodyChanges where
  modified : Bool
  position : Bool
  sleep : Bool
  colliders : Bool
  body_status : Bool

/-- Model of `RigidBodyChanges::all()`. -/
def RigidBodyChanges.allChanges : RigidBodyChanges := ⟨true, true, true, true, true⟩

/-- Model of `ActivationStatus`. -/
structure ActivationStatus where
  threshold : ℝ
  energy : ℝ
  sleeping : Bool

namespace ActivationStatus

/-- Model of `ActivationStatus::default_threshold()`. -/
def default_threshold : ℝ := 1 / 100

/-- Model of `ActivationStatus::new_active()`. -/
def new_active : ActivationStatus :=
  ⟨default_threshold, default_threshold * 4, false⟩

/-- Model of `ActivationStatus::new_inactive()`. -/
def new_inactive : ActivationStatus := ⟨default_threshold, 0, true⟩

/-- Model of `ActivationStatus::is_active()`: `self.energy != 0.0`. -/
def is_active (a : ActivationStatus) : Prop := a.energy ≠ 0

end ActivationStatus

/-- Model of the `RigidBody` struct (`dim2`: `angvel` and `torque` are
scalars, the angular inertia is a scalar).  Collider handles and the island
bookkeeping indices are plain naturals. -/
structure RigidBody where
  position : Iso2
  next_position : Iso2
  mass_properties : MassProperties
  world_com : Vec2
  effective_inv_mass : ℝ
  effective_world_inv_inertia_sqrt : ℝ
  linvel : Vec2
  angvel : ℝ
  linear_damping : ℝ
  angular_damping : ℝ
  force : Vec2
  torque : ℝ
  colliders : List ℕ
  gravity_scale : ℝ
  activation : ActivationStatus
  active_island_id : ℕ
  active_set_id : ℕ
  active_set_offset : ℕ
  active_set_timestamp : ℕ
  flags : RigidBodyFlags
  changes : RigidBodyChanges
  body_status : BodyStatus
  dominance_group : ℤ
  user_data : ℕ
  ccd_thickness : ℝ
  ccd_max_dist : ℝ

namespace RigidBody

/-- Model of `RigidBody::new()`. -/
def new : RigidBody where
  position := Iso2.identity
  next_position := Iso2.identity
  mass_properties := MassProperties.zero
  world_com := ⟨0, 0⟩
  effective_inv_mass := 0
  effective_world_inv_inertia_sqrt := 0
  linvel := ⟨0, 0⟩
  angvel := 0
  linear_damping := 0
  angular_damping := 0
  force := ⟨0, 0⟩
  torque := 0
  colliders := []
  gravity_scale := 1
  activation := ActivationStatus.new_active
  active_island_id := 0
  active_set_id := 0
  active_set_offset := 0
  active_set_timestamp := 0
  flags := RigidBodyFlags.emptyFlags
  changes := RigidBodyChanges.allChanges
  body_status := BodyStatus.Dynamic
  dominance_group := 0
  user_data := 0
  ccd_thickness := f32Max
  ccd_max_dist := 0

/-- Model of `RigidBody::is_dynamic()`. -/
def is_dynamic (rb : RigidBody) : Prop := rb.body_status = BodyStatus.Dynamic

instance (rb : RigidBody) : Decidable rb.is_dynamic := by
  unfold is_dynamic; infer_instance

/-- Model of `RigidBody::is_sleeping()`. -/
def is_sleeping (rb : RigidBody) : Bool := rb.activation.sleeping

/-- Model of `RigidBody::mass()`. -/
def mass (rb : RigidBody) : ℝ := utilsInv rb.mass_properties.inv_mass

/-- Model of `RigidBody::add_gravity`. -/
def add_gravity (rb : RigidBody) (gravity : Vec2) : RigidBody :=
  if rb.effective_inv_mass ≠ 0 then
    {rb with force := rb.force + Vec2.smul (rb.gravity_scale * rb.mass) gravity}
  else rb

/-- Model of `RigidBody::update_world_mass_properties`. -/
def update_world_mass_properties (rb : RigidBody) : RigidBody :=
  let rb1 := {rb with
    world_com := rb.mass_properties.world_com rb.position,
    effective_inv_mass := rb.mass_properties.inv_mass,
    effective_world_inv_inertia_sqrt :=
      rb.mass_properties.world_inv_inertia_sqrt rb.position.rotation}
  let rb2 := if rb1.flags.translation_locked then
    {rb1 with effective_inv_mass := 0} else rb1
  if rb2.flags.rotation_locked_z then
    {rb2 with effective_world_inv_inertia_sqrt := 0} else rb2

/-- Model of `RigidBody::set_translation_locked`. -/
def set_translation_locked (rb : RigidBody) (lock : Bool) : RigidBody :=
  update_world_mass_properties {rb with flags.translation_locked := lock}

/-- Model of `RigidBody::enable_ccd`. -/
def enable_ccd (rb : RigidBody) (enabled : Bool) : RigidBody :=
  {rb with flags.ccd_enabled := enabled}

/-- Model of `RigidBody::is_ccd_enabled`. -/
def is_ccd_enabled (rb : RigidBody) : Bool := rb.flags.ccd_enabled

/-- Model of `RigidBody::is_ccd_active`. -/
def is_ccd_active (rb : RigidBody) : Bool := rb.flags.ccd_active

/-- Model of `RigidBody::max_point_velocity`. -/
def max_point_velocity (rb : RigidBody) : ℝ :=
  rb.linvel.norm + |rb.angvel| * rb.ccd_max_dist

/-- Model of `RigidBody::is_moving_fast`. -/
def is_moving_fast (rb : RigidBody) (dt : ℝ) (include_forces : Bool) : Prop :=
  if rb.is_dynamic then
    if include_forces then
      (rb.linvel + Vec2.smul dt rb.force).norm
        + |rb.angvel + rb.torque * dt| * rb.ccd_max_dist > rb.ccd_thickness / 10
    else
      rb.max_point_velocity * dt > rb.ccd_thickness / 10
  else False

instance (rb : RigidBody) (dt : ℝ) (f : Bool) :
    Decidable (rb.is_moving_fast dt f) := by
  unfold is_moving_fast; infer_instance

/-- Model of `RigidBody::update_ccd_active_flag`. -/
def update_ccd_active_flag (rb : RigidBody) (dt : ℝ) (include_forces : Bool) :
    RigidBody :=
  if rb.is_ccd_enabled = true ∧ rb.is_moving_fast dt include_forces then
    {rb with flags.ccd_active := true}
  else
    {rb with flags.ccd_active := false}

/-- Model of `RigidBody::sleep`. -/
def sleep (rb : RigidBody) : RigidBody :=
  {rb with activation.energy := 0, activation.sleeping := true,
           linvel := ⟨0, 0⟩, angvel := 0}

/-- Model of `RigidBody::wake_up`. -/
def wake_up (rb : RigidBody) (strong : Bool) : RigidBody :=
  let rb1 := if rb.activation.sleeping then
    {rb with changes.sleep := true, activation.sleeping := false} else rb
  if (strong = true ∨ rb1.activation.energy = 0) ∧ rb1.is_dynamic then
    {rb1 with activation.energy := |rb1.activation.threshold| * 2}
  else rb1

/-- Model of `RigidBody::set_linvel`. -/
def set_linvel (rb : RigidBody) (linvel : Vec2) (wake : Bool) : RigidBody :=
  let rb1 := {rb with linvel := linvel}
  if rb1.is_dynamic ∧ wake = true then rb1.wake_up true else rb1

/-- Model of `RigidBody::set_angvel` (`dim2`: scalar angular velocity). -/
def set_angvel (rb : RigidBody) (angvel : ℝ) (wake : Bool) : RigidBody :=
  let rb1 := {rb with angvel := angvel}
  if rb1.is_dynamic ∧ wake = true then rb1.wake_up true else rb1

/-- Model of `RigidBody::apply_damping`. -/
def apply_damping (rb : RigidBody) (dt : ℝ) : RigidBody :=
  {rb with linvel := Vec2.smul (1 / (1 + dt * rb.linear_damping)) rb.linvel,
           angvel := rb.angvel * (1 / (1 + dt * rb.angular_damping))}

/-- Model of `RigidBody::set_gravity_scale`. -/
def set_gravity_scale (rb : RigidBody) (scale : ℝ) (wake : Bool) : RigidBody :=
  let rb1 := if wake = true ∧ rb.activation.sleeping then
    {rb with changes.sleep := true, activation.sleeping := false} else rb
  {rb1 with gravity_scale := scale}

/-- Model of `RigidBody::apply_force`. -/
def apply_force (rb : RigidBody) (force : Vec2) (wake : Bool) : RigidBody :=
  if rb.body_status = BodyStatus.Dynamic then
    let rb1 := {rb with force := rb.force + force}
    if wake then rb1.wake_up true else rb1
  else rb

/-- Model of `RigidBody::apply_torque` (`dim2`: scalar torque). -/
def apply_torque (rb : RigidBody) (torque : ℝ) (wake : Bool) : RigidBody :=
  if rb.body_status = BodyStatus.Dynamic then
    let rb1 := {rb with torque := rb.torque + torque}
    if wake then rb1.wake_up true else rb1
  else rb

/-- Model of `RigidBody::apply_force_at_point`. -/
def apply_force_at_point (rb : RigidBody) (force : Vec2) (point : Vec2)
    (wake : Bool) : RigidBody :=
  if rb.body_status = BodyStatus.Dynamic then
    let rb1 := {rb with force := rb.force + force,
                        torque := rb.torque + Vec2.cross2 (point - rb.world_com) force}
    if wake then rb1.wake_up true else rb1
  else rb

/-- Model of `RigidBody::apply_impulse`. -/
def apply_impulse (rb : RigidBody) (impulse : Vec2) (wake : Bool) : RigidBody :=
  if rb.body_status = BodyStatus.Dynamic then
    let rb1 := {rb with linvel := rb.linvel + Vec2.smul rb.effective_inv_mass impulse}
    if wake then rb1.wake_up true else rb1
  else rb

/-- Model of `RigidBody::apply_torque_impulse` (`dim2`: scalar). -/
def apply_torque_impulse (rb : RigidBody) (torque_impulse : ℝ) (wake : Bool) :
    RigidBody :=
  if rb.body_status = BodyStatus.Dynamic then
    let rb1 := {rb with angvel := rb.angvel
      + rb.effective_world_inv_inertia_sqrt
        * (rb.effective_world_inv_inertia_sqrt * torque_impulse)}
    if wake then rb1.wake_up true else rb1
  else rb

/-- Model of `RigidBody::apply_impulse_at_point`. -/
def apply_impulse_at_point (rb : RigidBody) (impulse : Vec2) (point : Vec2)
    (wake : Bool) : RigidBody :=
  let torque_impulse := Vec2.cross2 (point - rb.world_com) impulse
  (rb.apply_impulse impulse wake).apply_torque_impulse torque_impulse wake

/-- Model of `RigidBody::integrate_velocity`. -/
def integrate_velocity (rb : RigidBody) (dt : ℝ) : Iso2 :=
  let com := rb.position.apply rb.mass_properties.local_com
  let shift := Iso2.ofTranslation com
  Iso2.comp (Iso2.comp shift (Iso2.isoNew (Vec2.smul dt rb.linvel) (rb.angvel * dt)))
    shift.inverse

/-- Model of `RigidBody::integrate_next_position` (the trailing
`renormalize_fast` is the identity on the exactly-unit rotations of this
real-valued model). -/
def integrate_next_position (rb : RigidBody) (dt : ℝ) : RigidBody :=
  {rb with next_position := Iso2.comp (rb.integrate_velocity dt) rb.position}

/-- Model of `RigidBody::compute_velocity_from_next_position` (`dim2`:
the angular velocity comes from `dpos.rotation.angle()`). -/
def compute_velocity_from_next_position (rb : RigidBody) (inv_dt : ℝ) :
    RigidBody :=
  let dpos := Iso2.comp rb.next_position rb.position.inverse
  {rb with angvel := angleRep dpos.rotation * inv_dt,
           linvel := Vec2.smul inv_dt dpos.translation}

end RigidBody

/-- Model of the `RigidBodyBuilder` struct. -/
structure RigidBodyBuilder where
  position : Iso2
  linvel : Vec2
  angvel : ℝ
  gravity_scale : ℝ
  linear_damping : ℝ
  angular_damping : ℝ
  body_status : BodyStatus
  flags : RigidBodyFlags
  mass_properties : MassProperties
  can_sleep : Bool
  sleeping : Bool
  ccd_enabled : Bool
  dominance_group : ℤ
  user_data : ℕ

namespace RigidBodyBuilder

/-- Model of `RigidBodyBuilder::new`. -/
def newBuilder (body_status : BodyStatus) : RigidBodyBuilder where
  position := Iso2.identity
  linvel := ⟨0, 0⟩
  angvel := 0
  gravity_scale := 1
  linear_damping := 0
  angular_damping := 0
  body_status := body_status
  flags := RigidBodyFlags.emptyFlags
  mass_properties := MassProperties.zero
  can_sleep := true
  sleeping := false
  ccd_enabled := false
  dominance_group := 0
  user_data := 0

/-- Model of `RigidBodyBuilder::build`. -/
def build (b : RigidBodyBuilder) : RigidBody :=
  let rb := RigidBody.new
  let rb := {rb with
    next_position := b.position
    position := b.position
    linvel := b.linvel
    angvel := b.angvel
    body_status := b.body_status
    user_data := b.user_data
    mass_properties := b.mass_properties
    linear_damping := b.linear_damping
    angular_damping := b.angular_damping
    gravity_scale := b.gravity_scale
    flags := b.flags
    dominance_group := b.dominance_group}
  let rb := rb.enable_ccd b.ccd_enabled
  let rb := if b.can_sleep = true ∧ b.sleeping = true then rb.sleep else rb
  if ¬ b.can_sleep = true then {rb with activation.threshold := -1} else rb

end RigidBodyBuilder

/-! ## Model of `src/dynamics/solver/position_ground_constraint.rs` -/

/-- Model of the `IntegrationParameters` fields consumed by this core. -/
structure IntegrationParameters where
  dt : ℝ
  erp : ℝ
  allowed_linear_error : ℝ
  max_linear_correction : ℝ

/-- One solver contact of a `PositionGroundConstraint`: the slice of the
`p1`, `local_p2` and `dists` arrays at one index. -/
structure Contact where
  p1 : Vec2
  local_p2 : Vec2
  dist : ℝ

/-- Model of `PositionGroundConstraint`: the fixed-size point arrays paired
with `num_contacts` become a list of contacts; `rb2` (the position-buffer
slot) is dropped because the solver routines below take the dynamic body's
tentative pose directly. -/
structure PositionGroundConstraint where
  contacts : List Contact
  n1 : Vec2
  im2 : ℝ
  ii2 : ℝ
  erp : ℝ
  max_linear_correction : ℝ

namespace PositionGroundConstraint

/-- Per-contact `target_dist = -self.dists[k] - allowed_err`. -/
def target_dist (allowed_err : ℝ) (ct : Contact) : ℝ :=
  -ct.dist - allowed_err

/-- Per-contact `p2 = pos2 * self.local_p2[k]`. -/
def world_p2 (pos2 : Iso2) (ct : Contact) : Vec2 :=
  pos2.apply ct.local_p2

/-- Per-contact `dpos = p2 - p1`. -/
def dpos (pos2 : Iso2) (ct : Contact) : Vec2 :=
  world_p2 pos2 ct - ct.p1

/-- Model of `sqdist = dpos.norm_squared()` in `solve_point_point`. -/
def pp_sqdist (pos2 : Iso2) (ct : Contact) : ℝ :=
  (dpos pos2 ct).normSq

/-- Model of `dist = sqdist.sqrt()` in `solve_point_point`. -/
def pp_dist (pos2 : Iso2) (ct : Contact) : ℝ :=
  Real.sqrt (pp_sqdist pos2 ct)

/-- Model of `n = dpos / dist` in `solve_point_point`. -/
def pp_normal (pos2 : Iso2) (ct : Contact) : Vec2 :=
  Vec2.smul (1 / pp_dist pos2 ct) (dpos pos2 ct)

/-- Model of `gcross2 = -dp2.gcross(n)` in `solve_point_point`, where
`dp2 = p2.coords - pos2.translation.vector`. -/
def pp_gcross (pos2 : Iso2) (ct : Contact) : ℝ :=
  -(Vec2.cross2 (world_p2 pos2 ct - pos2.translation) (pp_normal pos2 ct))

/-- Model of `inv_r = im2 + gcross2.gdot(ii_gcross2)` in `solve_point_point`
(in 2D `ii_gcross2 = ii2 * gcross2` and `gdot` is scalar multiplication). -/
def pp_inv_r (c : PositionGroundConstraint) (pos2 : Iso2) (ct : Contact) : ℝ :=
  c.im2 + pp_gcross pos2 ct * (c.ii2 * pp_gcross pos2 ct)

/-- Model of `err = ((dist - target_dist) * erp).max(-max_linear_correction)`
in `solve_point_point`. -/
def pp_err (c : PositionGroundConstraint) (allowed_err : ℝ) (pos2 : Iso2)
    (ct : Contact) : ℝ :=
  max ((pp_dist pos2 ct - target_dist allowed_err ct) * c.erp)
    (-c.max_linear_correction)

/-- Model of `impulse = err / inv_r` in `solve_point_point`. -/
def pp_impulse (c : PositionGroundConstraint) (allowed_err : ℝ) (pos2 : Iso2)
    (ct : Contact) : ℝ :=
  pp_err c allowed_err pos2 ct / pp_inv_r c pos2 ct

/-- One iteration of the contact loop of `solve_point_point`: guarded by
`sqdist < target_dist * target_dist`, the positional impulse is applied as
`Isometry::from_parts(tra2 * pos2.translation, rot2 * pos2.rotation)`. -/
def solve_point_point_step (c : PositionGroundConstraint) (allowed_err : ℝ)
    (pos2 : Iso2) (ct : Contact) : Iso2 :=
  if pp_sqdist pos2 ct < target_dist allowed_err ct * target_dist allowed_err ct
  then
    { rotation := c.ii2 * pp_gcross pos2 ct * pp_impulse c allowed_err pos2 ct
        + pos2.rotation,
      translation := Vec2.smul (-pp_impulse c allowed_err pos2 ct * c.im2)
        (pp_normal pos2 ct) + pos2.translation }
  else pos2

/-- Model of `PositionGroundConstraint::solve_point_point`, restricted to the
dynamic body's slot of the position buffer. -/
def solve_point_point (c : PositionGroundConstraint)
    (params : IntegrationParameters) (pos2 : Iso2) : Iso2 :=
  c.contacts.foldl (solve_point_point_step c params.allowed_linear_error) pos2

/-- Model of `dist = dpos.dot(&n1)` in `solve_plane_point`. -/
def pl_dist (c : PositionGroundConstraint) (pos2 : Iso2) (ct : Contact) : ℝ :=
  (dpos pos2 ct).dot c.n1

/-- Model of `gcross2 = -dp2.gcross(n1)` in `solve_plane_point`. -/
def pl_gcross (c : PositionGroundConstraint) (pos2 : Iso2) (ct : Contact) : ℝ :=
  -(Vec2.cross2 (world_p2 pos2 ct - pos2.translation) c.n1)

/-- Model of `inv_r = im2 + gcross2.gdot(ii_gcross2)` in `solve_plane_point`. -/
def pl_inv_r (c : PositionGroundConstraint) (pos2 : Iso2) (ct : Contact) : ℝ :=
  c.im2 + pl_gcross c pos2 ct * (c.ii2 * pl_gcross c pos2 ct)

/-- Model of `err = ((dist - target_dist) * erp).max(-max_linear_correction)`
in `solve_plane_point`. -/
def pl_err (c : PositionGroundConstraint) (allowed_err : ℝ) (pos2 : Iso2)
    (ct : Contact) : ℝ :=
  max ((pl_dist c pos2 ct - target_dist allowed_err ct) * c.erp)
    (-c.max_linear_correction)

/-- Model of `impulse = err / inv_r` in `solve_plane_point`. -/
def pl_impulse (c : PositionGroundConstraint) (allowed_err : ℝ) (pos2 : Iso2)
    (ct : Contact) : ℝ :=
  pl_err c allowed_err pos2 ct / pl_inv_r c pos2 ct

/-- One iteration of the contact loop of `solve_plane_point`: guarded by
`dist < target_dist`. -/
def solve_plane_point_step (c : PositionGroundConstraint) (allowed_err : ℝ)
    (pos2 : Iso2) (ct : Contact) : Iso2 :=
  if pl_dist c pos2 ct < target_dist allowed_err ct then
    { rotation := c.ii2 * pl_gcross c pos2 ct * pl_impulse c allowed_err pos2 ct
        + pos2.rotation,
      translation := Vec2.smul (-pl_impulse c allowed_err pos2 ct * c.im2) c.n1
        + pos2.translation }
  else pos2

/-- Model of `PositionGroundConstraint::solve_plane_point`, restricted to the
dynamic body's slot of the position buffer. -/
def solve_plane_point (c : PositionGroundConstraint)
    (params : IntegrationParameters) (pos2 : Iso2) : Iso2 :=
  c.contacts.foldl (solve_plane_point_step c params.allowed_linear_error) pos2

end PositionGroundConstraint

/-! ## Concrete bodies and constraints used as inputs of witnesses and
counterexamples -/

/-- The §3 invariant on the activation state: `sleeping == true` implies
`energy == 0` and `linvel == angvel == 0`. -/
def sleepInvariant (rb : RigidBody) : Prop :=
  rb.activation.sleeping = true →
    rb.activation.energy = 0 ∧ rb.linvel = ⟨0, 0⟩ ∧ rb.angvel = 0

/-- A freshly built static body. -/
def bodyStatic : RigidBody :=
  {RigidBody.new with body_status := BodyStatus.Static}

/-- A sleeping static body with zero activation energy. -/
def bodySleepingStatic : RigidBody :=
  {RigidBody.new with
    body_status := BodyStatus.Static
    activation := ⟨ActivationStatus.default_threshold, 0, true⟩}

/-- A dynamic body with a negative sleep threshold (a body that never
sleeps, per the `ActivationStatus` documentation). -/
def bodyNegThreshold : RigidBody :=
  {RigidBody.new with activation.threshold := -1}

/-- A dynamic body of mass `1/2` whose translations are locked (built by
`set_translation_locked`, which refreshes the cached world mass
properties). -/
def bodyLockedMass : RigidBody :=
  RigidBody.set_translation_locked
    {RigidBody.new with mass_properties := ⟨⟨0, 0⟩, 2, 0⟩} true

/-- A dynamic body of mass `1/2` with a consistent effective inverse mass
(no axis locking). -/
def bodyMassHalf : RigidBody :=
  RigidBody.update_world_mass_properties
    {RigidBody.new with mass_properties := ⟨⟨0, 0⟩, 2, 0⟩}

/-- A dynamic CCD-enabled body moving along `x`. -/
def bodyCcdVel : RigidBody :=
  {RigidBody.new with
    flags := ⟨false, false, true, false⟩
    linvel := ⟨1, 0⟩
    ccd_thickness := 1}

/-- A dynamic CCD-enabled body whose pending force opposes its velocity. -/
def bodyCcdForce : RigidBody :=
  {RigidBody.new with
    flags := ⟨false, false, true, false⟩
    linvel := ⟨1, 0⟩
    force := ⟨-2, 0⟩
    ccd_thickness := 5}

/-- A coincident point-point contact with penetration 1: the two world
points are equal. -/
def ctCoincident : Contact := ⟨⟨0, 0⟩, ⟨0, 0⟩, -1⟩

/-- A penetrating point-point contact with distinct world points. -/
def ctOffset : Contact := ⟨⟨0, 0⟩, ⟨1, 0⟩, -3⟩

/-- A constraint holding `ctOffset`, for a unit-mass dynamic body. -/
def cstPenetrating : PositionGroundConstraint :=
  ⟨[ctOffset], ⟨0, 1⟩, 1, 1, 1, 1⟩

/-- A single separated point-point contact (signed distance `+10`) with
`erp = 1` and `max_linear_correction = 1`. -/
def cstSeparated : PositionGroundConstraint :=
  ⟨[⟨⟨0, 0⟩, ⟨1, 0⟩, 10⟩], ⟨0, 1⟩, 1, 0, 1, 1⟩

/-- Integration parameters with zero allowed linear error. -/
def paramsZeroErr : IntegrationParameters := ⟨1 / 60, 1 / 5, 0, 1⟩

/-- The single plane-point contact of a unit-mass sphere overlapping a
horizontal plane by depth `1/2` (the shared world contact point is the
origin). -/
def ctSphere : Contact := ⟨⟨0, 0⟩, ⟨0, -(1 / 2)⟩, -(1 / 2)⟩

/-- The sphere-on-plane constraint: upward normal, unit mass, `erp = 1`,
`max_linear_correction = 10`. -/
def cstSphere : PositionGroundConstraint :=
  ⟨[ctSphere], ⟨0, 1⟩, 1, 4, 1, 10⟩

/-- The sphere's tentative pose: centered at `(0, 1/2)`, no rotation. -/
def posSphere : Iso2 := ⟨0, ⟨0, 1 / 2⟩⟩

/-- Integration parameters for the sphere scenario: zero allowed linear
error. -/
def paramsSphere : IntegrationParameters := ⟨1 / 60, 1, 0, 10⟩

/-- The round-trip counterexample body: world center of mass at `(1, 0)`
(pose translated by `(1, 0)`, zero local center of mass) and angular
velocity `π`. -/
def bodyRoundTrip : RigidBody :=
  {RigidBody.new with
    position := ⟨0, ⟨1, 0⟩⟩
    next_position := ⟨0, ⟨1, 0⟩⟩
    angvel := π}

/-- The round-trip witness body: world center of mass at the origin,
translating and rotating. -/
def bodyRoundTripOk : RigidBody :=
  {RigidBody.new with linvel := ⟨2, 3⟩, angvel := 1}

/-! ## Helper lemmas -/

theorem Vec2.add_def (a b : Vec2) : a + b = ⟨a.x + b.x, a.y + b.y⟩ := rfl

theorem Vec2.sub_def (a b : Vec2) : a - b = ⟨a.x - b.x, a.y - b.y⟩ := rfl

theorem Vec2.neg_def (a : Vec2) : -a = ⟨-a.x, -a.y⟩ := rfl

theorem Vec2.dot_self (a : Vec2) : a.dot a = a.normSq := by
  simp [Vec2.dot, Vec2.normSq]; ring

theorem Vec2.normSq_nonneg (a : Vec2) : 0 ≤ a.normSq :=
  add_nonneg (sq_nonneg _) (sq_nonneg _)

theorem Vec2.norm_nonneg' (a : Vec2) : 0 ≤ a.norm := Real.sqrt_nonneg _

theorem Vec2.normSq_eq_zero_iff (a : Vec2) : a.normSq = 0 ↔ a = ⟨0, 0⟩ := by
  unfold Vec2.normSq
  constructor
  · intro h
    have hx : a.x = 0 := by nlinarith [sq_nonneg a.x, sq_nonneg a.y]
    have hy : a.y = 0 := by nlinarith [sq_nonneg a.x, sq_nonneg a.y]
    cases a
    simp_all
  · rintro rfl; norm_num

theorem Vec2.norm_smul' (s : ℝ) (a : Vec2) (hs : 0 ≤ s) :
    (Vec2.smul s a).norm = s * a.norm := by
  unfold Vec2.norm Vec2.normSq Vec2.smul
  simp only
  rw [show (s * a.x) ^ 2 + (s * a.y) ^ 2 = s ^ 2 * (a.x ^ 2 + a.y ^ 2) by ring,
    Real.sqrt_mul (sq_nonneg s), Real.sqrt_sq hs]

theorem rotApply_zero_angle (v : Vec2) : rotApply 0 v = v := by
  simp [rotApply]

theorem rotApply_add (a b : ℝ) (v : Vec2) :
    rotApply (a + b) v = rotApply a (rotApply b v) := by
  simp only [rotApply, Real.cos_add, Real.sin_add, Vec2.mk.injEq]
  constructor <;> ring

theorem rotApply_neg_vec (a : ℝ) (v : Vec2) :
    rotApply a (-v) = -(rotApply a v) := by
  simp only [rotApply, Vec2.neg_def, Vec2.mk.injEq]
  constructor <;> ring

theorem rotApply_zero_vec (a : ℝ) : rotApply a ⟨0, 0⟩ = ⟨0, 0⟩ := by
  simp [rotApply]

theorem Iso2.apply_comp (a b : Iso2) (p : Vec2) :
    (Iso2.comp a b).apply p = a.apply (b.apply p) := by
  simp only [Iso2.comp, Iso2.apply, rotApply_add]
  cases a; cases b
  simp only [Vec2.add_def, rotApply]
  simp only [Vec2.mk.injEq]
  constructor <;> ring

theorem angleRep_eq_self {θ : ℝ} (h₁ : -π < θ) (h₂ : θ ≤ π) :
    angleRep θ = θ := by
  have hπ : (0:ℝ) < π := Real.pi_pos
  have hc : ⌈(θ - π) / (2 * π)⌉ = 0 := by
    rw [Int.ceil_eq_zero_iff, Set.mem_Ioc]
    constructor
    · rw [lt_div_iff₀ (by linarith : (0:ℝ) < 2 * π)]
      linarith
    · rw [div_le_iff₀ (by linarith : (0:ℝ) < 2 * π)]
      linarith
  rw [angleRep, hc]
  push_cast
  ring

theorem Vec2.norm_smul_abs (s : ℝ) (a : Vec2) :
    (Vec2.smul s a).norm = |s| * a.norm := by
  unfold Vec2.norm Vec2.normSq Vec2.smul
  simp only
  rw [show (s * a.x) ^ 2 + (s * a.y) ^ 2 = s ^ 2 * (a.x ^ 2 + a.y ^ 2) by ring,
    Real.sqrt_mul (sq_nonneg s), Real.sqrt_sq_eq_abs]

theorem RigidBody.wake_up_not_sleeping (rb : RigidBody) (strong : Bool) :
    (rb.wake_up strong).activation.sleeping = false := by
  unfold RigidBody.wake_up
  by_cases hs : rb.activation.sleeping
  · simp only [hs, if_true]
    split <;> simp
  · simp only [hs, if_false, Bool.false_eq_true]
    split <;> simp_all

theorem Vec2.add_sub_cancel'' (a b : Vec2) : (a + b) - b = a := by
  cases a; cases b
  simp only [Vec2.add_def, Vec2.sub_def, Vec2.mk.injEq]
  constructor <;> ring

theorem Vec2.sub_self' (a : Vec2) : a - a = ⟨0, 0⟩ := by
  cases a
  simp only [Vec2.sub_def, Vec2.mk.injEq]
  constructor <;> ring

theorem Vec2.norm_zero' : (⟨0, 0⟩ : Vec2).norm = 0 := by
  unfold Vec2.norm Vec2.normSq
  norm_num

theorem impulse_mag_le {err invr im2 mlc : ℝ} (herr1 : -mlc ≤ err)
    (herr2 : err ≤ 0) (him : 0 < im2) (hinvr : im2 ≤ invr) :
    |(-(err / invr) * im2)| ≤ mlc := by
  have hinvr0 : 0 < invr := lt_of_lt_of_le him hinvr
  have hmlc0 : 0 ≤ mlc := by linarith
  have hv : -(err / invr) * im2 = -err * im2 / invr := by ring
  have hv0 : 0 ≤ -(err / invr) * im2 := by
    rw [hv]
    exact div_nonneg (mul_nonneg (by linarith) him.le) hinvr0.le
  rw [abs_of_nonneg hv0, hv, div_le_iff₀ hinvr0]
  nlinarith

theorem PositionGroundConstraint.pp_normal_norm_le_one (pos2 : Iso2)
    (ct : Contact) : (PositionGroundConstraint.pp_normal pos2 ct).norm ≤ 1 := by
  unfold PositionGroundConstraint.pp_normal PositionGroundConstraint.pp_dist
  rw [Vec2.norm_smul_abs]
  by_cases h : PositionGroundConstraint.pp_sqdist pos2 ct = 0
  · rw [show (PositionGroundConstraint.dpos pos2 ct).norm
        = Real.sqrt (PositionGroundConstraint.pp_sqdist pos2 ct) from rfl, h,
      Real.sqrt_zero, mul_zero]
    norm_num
  · have h0 : 0 < PositionGroundConstraint.pp_sqdist pos2 ct :=
      lt_of_le_of_ne (Vec2.normSq_nonneg _) (Ne.symm h)
    have hsq : 0 < Real.sqrt (PositionGroundConstraint.pp_sqdist pos2 ct) :=
      Real.sqrt_pos.mpr h0
    rw [abs_of_nonneg (by positivity),
      show (PositionGroundConstraint.dpos pos2 ct).norm
        = Real.sqrt (PositionGroundConstraint.pp_sqdist pos2 ct) from rfl,
      one_div, inv_mul_cancel₀ (ne_of_gt hsq)]

theorem PositionGroundConstraint.pl_dist_shift (c : PositionGroundConstraint)
    (ct : Contact) (r k : ℝ) (t0 : Vec2) :
    PositionGroundConstraint.pl_dist c ⟨r, Vec2.smul k c.n1 + t0⟩ ct
      = PositionGroundConstraint.pl_dist c ⟨r, t0⟩ ct + k * c.n1.normSq := by
  unfold PositionGroundConstraint.pl_dist PositionGroundConstraint.dpos
    PositionGroundConstraint.world_p2 Iso2.apply
  cases c.n1; cases t0; cases ct
  simp only [rotApply, Vec2.add_def, Vec2.sub_def, Vec2.smul, Vec2.dot,
    Vec2.normSq]
  ring


theorem Vec2.smul_one_div_smul (dt : ℝ) (h : dt ≠ 0) (a : Vec2) :
    Vec2.smul (1 / dt) (Vec2.smul dt a) = a := by
  cases a
  unfold Vec2.smul
  simp only [Vec2.mk.injEq]
  constructor <;> field_simp

theorem Iso2.comp_comp_inverse (D P : Iso2) :
    Iso2.comp (Iso2.comp D P) (Iso2.inverse P) = D := by
  cases D with
  | mk dr dtr =>
    cases P with
    | mk pr ptr =>
      unfold Iso2.comp Iso2.inverse
      simp only [Iso2.mk.injEq]
      refine ⟨by ring, ?_⟩
      rw [rotApply_add, ← rotApply_add pr (-pr), add_neg_cancel,
        rotApply_zero_angle, rotApply_neg_vec]
      cases rotApply dr ptr
      cases dtr
      simp only [Vec2.add_def, Vec2.neg_def, Vec2.mk.injEq]
      constructor <;> ring

theorem RigidBody.integrate_velocity_com_zero (rb : RigidBody) (dt : ℝ)
    (hcom : rb.position.apply rb.mass_properties.local_com = ⟨0, 0⟩) :
    rb.integrate_velocity dt = ⟨rb.angvel * dt, Vec2.smul dt rb.linvel⟩ := by
  unfold RigidBody.integrate_velocity
  rw [hcom]
  unfold Iso2.ofTranslation Iso2.comp Iso2.inverse Iso2.isoNew
  simp only [Iso2.mk.injEq]
  constructor
  · ring
  · cases hv : rb.linvel
    simp only [rotApply, Vec2.add_def, Vec2.neg_def, Vec2.smul,
      Vec2.mk.injEq]
    norm_num [Real.cos_zero, Real.sin_zero]


/-! ## The claims -/

/-- C7: for every body whose `body_status` is `Static` or `Kinematic`, the
six force/torque/impulse mutators leave the entire body state unchanged
(a silent no-op, with no wake-up), for every argument value. -/
theorem claim_C7_nondynamic_mutators_noop (rb : RigidBody)
    (h : rb.body_status ≠ BodyStatus.Dynamic) (f : Vec2) (t : ℝ) (p : Vec2)
    (i : Vec2) (ti : ℝ) (w : Bool) :
    rb.apply_force f w = rb ∧ rb.apply_torque t w = rb ∧
    rb.apply_force_at_point f p w = rb ∧ rb.apply_impulse i w = rb ∧
    rb.apply_torque_impulse ti w = rb ∧ rb.apply_impulse_at_point i p w = rb := by
  simp [RigidBody.apply_force, RigidBody.apply_torque,
    RigidBody.apply_force_at_point, RigidBody.apply_impulse,
    RigidBody.apply_torque_impulse, RigidBody.apply_impulse_at_point, h]

/-- Witness for C7 at a concrete static body and concrete arguments. -/
theorem claim_C7_witness :
    bodyStatic.apply_force ⟨1, 2⟩ true = bodyStatic ∧
    bodyStatic.apply_torque 3 true = bodyStatic ∧
    bodyStatic.apply_force_at_point ⟨1, 2⟩ ⟨4, 5⟩ true = bodyStatic ∧
    bodyStatic.apply_impulse ⟨6, 7⟩ true = bodyStatic ∧
    bodyStatic.apply_torque_impulse 8 true = bodyStatic ∧
    bodyStatic.apply_impulse_at_point ⟨6, 7⟩ ⟨4, 5⟩ true = bodyStatic :=
  claim_C7_nondynamic_mutators_noop bodyStatic (by simp [bodyStatic])
    ⟨1, 2⟩ 3 ⟨4, 5⟩ ⟨6, 7⟩ 8 true

/-- C10: `wake_up(strong)` on a sleeping non-dynamic body clears the
sleeping flag but never resets `activation.energy` (the reset is gated on
`is_dynamic()`), so a zero energy stays zero and
`ActivationStatus::is_active()` still fails after waking. -/
theorem claim_C10_nondynamic_wake_keeps_energy (rb : RigidBody) (strong : Bool)
    (hnd : ¬ rb.is_dynamic) (hs : rb.activation.sleeping = true) :
    (rb.wake_up strong).activation.sleeping = false ∧
    (rb.wake_up strong).activation.energy = rb.activation.energy ∧
    (rb.activation.energy = 0 → ¬ (rb.wake_up strong).activation.is_active) := by
  unfold RigidBody.wake_up
  simp [hs, hnd, ActivationStatus.is_active, RigidBody.is_dynamic] at *
  simp [hnd]

/-- Witness for C10 at a concrete sleeping static body. -/
theorem claim_C10_witness :
    (bodySleepingStatic.wake_up true).activation.sleeping = false ∧
    (bodySleepingStatic.wake_up true).activation.energy
      = bodySleepingStatic.activation.energy ∧
    ¬ (bodySleepingStatic.wake_up true).activation.is_active := by
  have h := claim_C10_nondynamic_wake_keeps_energy bodySleepingStatic true
    (by simp [bodySleepingStatic, RigidBody.is_dynamic])
    (by simp [bodySleepingStatic])
  exact ⟨h.1, h.2.1, h.2.2 (by simp [bodySleepingStatic])⟩

/-- C6 counterexample: on a dynamic body whose sleep threshold is negative,
`wake_up(true)` sets the energy to `|threshold| * 2`, which is not
`2 * threshold`. -/
theorem claim_C6_counterexample :
    (bodyNegThreshold.wake_up true).activation.energy
      ≠ 2 * bodyNegThreshold.activation.threshold := by
  have h : (bodyNegThreshold.wake_up true).activation.energy = 2 := by
    unfold RigidBody.wake_up
    norm_num [bodyNegThreshold, RigidBody.new, RigidBody.is_dynamic,
      ActivationStatus.new_active]
  rw [h]
  norm_num [bodyNegThreshold, RigidBody.new, ActivationStatus.new_active]

/-- C6 amended: after `wake_up(true)` on a dynamic body, `is_sleeping()`
returns false and `activation.energy` equals `|activation.threshold| * 2`
(twice the absolute value of the threshold, not twice the threshold). -/
theorem claim_C6_amended (rb : RigidBody) (h : rb.is_dynamic) :
    (rb.wake_up true).is_sleeping = false ∧
    (rb.wake_up true).activation.energy = |rb.activation.threshold| * 2 := by
  constructor
  · exact rb.wake_up_not_sleeping true
  · unfold RigidBody.wake_up
    by_cases hs : rb.activation.sleeping <;>
      simp_all [RigidBody.is_dynamic]

/-- Witness for C6 at a freshly constructed (dynamic) body. -/
theorem claim_C6_witness :
    (RigidBody.new.wake_up true).is_sleeping = false ∧
    (RigidBody.new.wake_up true).activation.energy
      = |RigidBody.new.activation.threshold| * 2 :=
  claim_C6_amended RigidBody.new (by simp [RigidBody.new, RigidBody.is_dynamic])

/-- C8 counterexample: a dynamic body of mass `1/2` with locked translations
has `mass_properties.inv_mass = 2 ≠ 0` but `effective_inv_mass = 0`, so
`add_gravity` leaves the force unchanged instead of adding
`g * gravity_scale * mass`. -/
theorem claim_C8_counterexample :
    bodyLockedMass.mass_properties.inv_mass ≠ 0 ∧
    (bodyLockedMass.add_gravity ⟨1, 0⟩).force
      ≠ bodyLockedMass.force
        + Vec2.smul (bodyLockedMass.gravity_scale * bodyLockedMass.mass) ⟨1, 0⟩ := by
  have hbody : bodyLockedMass.effective_inv_mass = 0 ∧
      bodyLockedMass.mass_properties.inv_mass = 2 ∧
      bodyLockedMass.force = ⟨0, 0⟩ ∧ bodyLockedMass.gravity_scale = 1 := by
    unfold bodyLockedMass RigidBody.set_translation_locked
      RigidBody.update_world_mass_properties
    norm_num [RigidBody.new, RigidBodyFlags.emptyFlags]
  refine ⟨by rw [hbody.2.1]; norm_num, ?_⟩
  have hng : (bodyLockedMass.add_gravity ⟨1, 0⟩).force = bodyLockedMass.force := by
    unfold RigidBody.add_gravity
    rw [if_neg]
    simp [hbody.1]
  rw [hng, hbody.2.2.1, RigidBody.mass, hbody.2.1, hbody.2.2.2, utilsInv]
  norm_num [Vec2.smul, Vec2.add_def, Vec2.mk.injEq]

/-- C8 amended: `add_gravity` is guarded by the cached `effective_inv_mass`
(not by `mass_properties.inv_mass`): it is a no-op when
`effective_inv_mass == 0`; when `effective_inv_mass != 0` it adds
`g * gravity_scale * mass` to the force, which is still no observable
change when `inv_mass == 0` because then `mass() == 0`. -/
theorem claim_C8_amended (rb : RigidBody) (g : Vec2) :
    (rb.effective_inv_mass = 0 → rb.add_gravity g = rb) ∧
    (rb.mass_properties.inv_mass = 0 → (rb.add_gravity g).force = rb.force) ∧
    (rb.effective_inv_mass ≠ 0 →
      (rb.add_gravity g).force
        = rb.force + Vec2.smul (rb.gravity_scale * rb.mass) g) := by
  refine ⟨?_, ?_, ?_⟩
  · intro h
    unfold RigidBody.add_gravity
    simp [h]
  · intro h
    unfold RigidBody.add_gravity
    by_cases he : rb.effective_inv_mass = 0
    · simp [he]
    · simp only [he, ne_eq, not_false_eq_true, if_true]
      simp [RigidBody.mass, h, utilsInv, Vec2.smul, Vec2.add_def]
  · intro h
    unfold RigidBody.add_gravity
    simp [h]

/-- Witness for C8: each branch of the amended statement discharged at a
concrete body and gravity vector (a translation-locked body, a massless
body, and a free body of mass `1/2`). -/
theorem claim_C8_witness :
    bodyLockedMass.add_gravity ⟨1, 0⟩ = bodyLockedMass ∧
    (RigidBody.new.add_gravity ⟨1, 0⟩).force = RigidBody.new.force ∧
    (bodyMassHalf.add_gravity ⟨1, 0⟩).force
      = bodyMassHalf.force
        + Vec2.smul (bodyMassHalf.gravity_scale * bodyMassHalf.mass) ⟨1, 0⟩ :=
  ⟨(claim_C8_amended bodyLockedMass ⟨1, 0⟩).1 (by
      unfold bodyLockedMass RigidBody.set_translation_locked
        RigidBody.update_world_mass_properties
      norm_num [RigidBody.new, RigidBodyFlags.emptyFlags]),
   (claim_C8_amended RigidBody.new ⟨1, 0⟩).2.1 (by
      norm_num [RigidBody.new, MassProperties.zero]),
   (claim_C8_amended bodyMassHalf ⟨1, 0⟩).2.2 (by
      unfold bodyMassHalf RigidBody.update_world_mass_properties
      norm_num [RigidBody.new, RigidBodyFlags.emptyFlags])⟩

/-- C5 counterexample: `set_linvel` with `wake_up = false` on a sleeping
body installs a non-zero linear velocity while leaving the sleeping flag
set, so the claimed invariant is not preserved. -/
theorem claim_C5_counterexample :
    ¬ sleepInvariant (RigidBody.new.sleep.set_linvel ⟨1, 0⟩ false) := by
  intro hinv
  have hsleep :
      (RigidBody.new.sleep.set_linvel ⟨1, 0⟩ false).activation.sleeping = true := by
    simp [RigidBody.set_linvel, RigidBody.sleep, RigidBody.is_dynamic]
  have hlin : (RigidBody.new.sleep.set_linvel ⟨1, 0⟩ false).linvel = ⟨1, 0⟩ := by
    simp [RigidBody.set_linvel, RigidBody.sleep, RigidBody.is_dynamic]
  obtain ⟨-, h2, -⟩ := hinv hsleep
  rw [hlin] at h2
  simp [Vec2.mk.injEq] at h2

/-- C5 amended: for every body satisfying the sleeping invariant, the
invariant holds after construction (`RigidBodyBuilder::build`) and after
`sleep()`, and is preserved by `apply_damping`, by `set_gravity_scale`,
and by `set_linvel`/`set_angvel` assigning a zero velocity; on dynamic
bodies it is additionally preserved by `set_linvel`/`set_angvel` with
`wake_up = true`; `set_linvel` and `set_angvel` with `wake_up = false`
and a non-zero velocity do not preserve it. -/
theorem claim_C5_amended (b : RigidBodyBuilder) (rb rbs : RigidBody)
    (v : Vec2) (ω dt scale : ℝ) (w : Bool)
    (hinv : sleepInvariant rb) :
    sleepInvariant b.build ∧ sleepInvariant rbs.sleep ∧
    sleepInvariant (rb.apply_damping dt) ∧
    sleepInvariant (rb.set_gravity_scale scale w) ∧
    (rb.is_dynamic → sleepInvariant (rb.set_linvel v true)) ∧
    (rb.is_dynamic → sleepInvariant (rb.set_angvel ω true)) ∧
    sleepInvariant (rb.set_linvel ⟨0, 0⟩ w) ∧
    sleepInvariant (rb.set_angvel 0 w) := by
  refine ⟨?_, ?_, ?_, ?_, ?_, ?_, ?_, ?_⟩
  · unfold sleepInvariant RigidBodyBuilder.build
    by_cases h2 : b.can_sleep = true
    · by_cases h3 : b.sleeping = true
      · simp [h2, h3, RigidBody.sleep, RigidBody.enable_ccd]
      · simp [h2, h3, RigidBody.enable_ccd, RigidBody.new,
          ActivationStatus.new_active]
    · simp [h2, RigidBody.enable_ccd, RigidBody.new,
        ActivationStatus.new_active]
  · unfold sleepInvariant RigidBody.sleep
    intro _
    simp
  · unfold sleepInvariant RigidBody.apply_damping
    intro hs
    obtain ⟨he, hl, ha⟩ := hinv hs
    simp [he, hl, ha, Vec2.smul]
  · unfold sleepInvariant RigidBody.set_gravity_scale
    by_cases hw : w = true ∧ rb.activation.sleeping
    · simp [hw]
    · simp only [hw, if_false]
      intro hs
      exact hinv hs
  · intro hdyn
    unfold sleepInvariant RigidBody.set_linvel
    have hdyn1 : ({rb with linvel := v} : RigidBody).is_dynamic := hdyn
    rw [if_pos ⟨hdyn1, rfl⟩]
    intro hs
    rw [RigidBody.wake_up_not_sleeping] at hs
    cases hs
  · intro hdyn
    unfold sleepInvariant RigidBody.set_angvel
    have hdyn1 : ({rb with angvel := ω} : RigidBody).is_dynamic := hdyn
    rw [if_pos ⟨hdyn1, rfl⟩]
    intro hs
    rw [RigidBody.wake_up_not_sleeping] at hs
    cases hs
  · unfold sleepInvariant RigidBody.set_linvel
    by_cases hc : ({rb with linvel := (⟨0, 0⟩ : Vec2)} : RigidBody).is_dynamic
        ∧ w = true
    · rw [if_pos hc]
      intro hs
      rw [RigidBody.wake_up_not_sleeping] at hs
      cases hs
    · rw [if_neg hc]
      intro hs
      obtain ⟨he, -, ha⟩ := hinv hs
      exact ⟨he, rfl, ha⟩
  · unfold sleepInvariant RigidBody.set_angvel
    by_cases hc : ({rb with angvel := (0 : ℝ)} : RigidBody).is_dynamic
        ∧ w = true
    · rw [if_pos hc]
      intro hs
      rw [RigidBody.wake_up_not_sleeping] at hs
      cases hs
    · rw [if_neg hc]
      intro hs
      obtain ⟨he, hl, -⟩ := hinv hs
      exact ⟨he, hl, rfl⟩

/-- Witness for C5 at a freshly built dynamic builder and a slept dynamic
body, with concrete velocities, damping, scale and wake flags; the two
dynamic-only conjuncts are discharged at the (dynamic) slept body. -/
theorem claim_C5_witness :
    sleepInvariant (RigidBodyBuilder.newBuilder BodyStatus.Dynamic).build ∧
    sleepInvariant RigidBody.new.sleep ∧
    sleepInvariant (RigidBody.new.sleep.apply_damping 1) ∧
    sleepInvariant (RigidBody.new.sleep.set_gravity_scale 2 false) ∧
    sleepInvariant (RigidBody.new.sleep.set_linvel ⟨3, 4⟩ true) ∧
    sleepInvariant (RigidBody.new.sleep.set_angvel 5 true) ∧
    sleepInvariant (RigidBody.new.sleep.set_linvel ⟨0, 0⟩ false) ∧
    sleepInvariant (RigidBody.new.sleep.set_angvel 0 false) := by
  have h := claim_C5_amended (RigidBodyBuilder.newBuilder BodyStatus.Dynamic)
    RigidBody.new.sleep RigidBody.new ⟨3, 4⟩ 5 1 2 false
    (by intro _; refine ⟨?_, ?_, ?_⟩ <;> simp [RigidBody.sleep])
  have hdyn : RigidBody.new.sleep.is_dynamic := by
    simp [RigidBody.sleep, RigidBody.is_dynamic, RigidBody.new]
  exact ⟨h.1, h.2.1, h.2.2.1, h.2.2.2.1, h.2.2.2.2.1 hdyn,
    h.2.2.2.2.2.1 hdyn, h.2.2.2.2.2.2.1, h.2.2.2.2.2.2.2⟩

/-- C9 counterexample: in the include-forces mode, scaling the linear
velocity up (same direction, factor 2) flips `is_ccd_active` from true to
false, because the pending force cancels the larger velocity. -/
theorem claim_C9_counterexample :
    (bodyCcdForce.update_ccd_active_flag 1 true).is_ccd_active = true ∧
    (({bodyCcdForce with
        linvel := Vec2.smul 2 bodyCcdForce.linvel}).update_ccd_active_flag 1
          true).is_ccd_active = false := by
  have h1 : bodyCcdForce.is_moving_fast 1 true := by
    unfold RigidBody.is_moving_fast bodyCcdForce
    norm_num [RigidBody.new, RigidBody.is_dynamic, Vec2.smul, Vec2.add_def,
      Vec2.norm, Vec2.normSq, Real.sqrt_one]
  have h3 : ¬ ({bodyCcdForce with
      linvel := Vec2.smul 2 bodyCcdForce.linvel} : RigidBody).is_moving_fast
        1 true := by
    unfold RigidBody.is_moving_fast bodyCcdForce
    norm_num [RigidBody.new, RigidBody.is_dynamic, Vec2.smul, Vec2.add_def,
      Vec2.norm, Vec2.normSq, Real.sqrt_zero]
  constructor
  · unfold RigidBody.update_ccd_active_flag
    rw [if_pos ⟨by simp [RigidBody.is_ccd_enabled, bodyCcdForce], h1⟩]
    simp [RigidBody.is_ccd_active]
  · unfold RigidBody.update_ccd_active_flag
    rw [if_neg (fun hc => h3 hc.2)]
    simp [RigidBody.is_ccd_active]

/-- C9 amended: in the velocity-only mode (`include_forces = false`), for a
nonnegative `dt`, scaling `linvel` by any factor `s ≥ 1` can only keep a
true `is_ccd_active` true after `update_ccd_active_flag` (monotone
activation); the monotonicity does not hold in the include-forces mode. -/
theorem claim_C9_amended (rb : RigidBody) (s dt : ℝ) (hs : 1 ≤ s)
    (hdt : 0 ≤ dt)
    (h : (rb.update_ccd_active_flag dt false).is_ccd_active = true) :
    (({rb with linvel := Vec2.smul s rb.linvel}).update_ccd_active_flag dt
      false).is_ccd_active = true := by
  unfold RigidBody.update_ccd_active_flag at h ⊢
  by_cases hc : rb.is_ccd_enabled = true ∧ rb.is_moving_fast dt false
  case neg =>
    rw [if_neg hc] at h
    simp [RigidBody.is_ccd_active] at h
  case pos =>
    have hen : ({rb with linvel := Vec2.smul s rb.linvel} :
        RigidBody).is_ccd_enabled = true := hc.1
    have hmf0 := hc.2
    unfold RigidBody.is_moving_fast at hmf0
    by_cases hdyn : rb.is_dynamic
    · rw [if_pos hdyn] at hmf0
      simp only [Bool.false_eq_true, if_false] at hmf0
      have hsc : ({rb with linvel := Vec2.smul s rb.linvel} :
          RigidBody).is_moving_fast dt false := by
        unfold RigidBody.is_moving_fast
        rw [if_pos (show ({rb with linvel := Vec2.smul s rb.linvel} :
          RigidBody).is_dynamic from hdyn)]
        simp only [Bool.false_eq_true, if_false]
        unfold RigidBody.max_point_velocity at hmf0 ⊢
        show ((Vec2.smul s rb.linvel).norm + |rb.angvel| * rb.ccd_max_dist) * dt
            > rb.ccd_thickness / 10
        rw [Vec2.norm_smul' s rb.linvel (by linarith)]
        have h1 : 0 ≤ rb.linvel.norm := Vec2.norm_nonneg' _
        nlinarith [mul_nonneg (mul_nonneg
          (by linarith : (0:ℝ) ≤ s - 1) h1) hdt]
      rw [if_pos ⟨hen, hsc⟩]
      simp [RigidBody.is_ccd_active]
    · rw [if_neg hdyn] at hmf0
      exact hmf0.elim

/-- Witness for C9: the amended monotonicity applied to a concrete
CCD-active body, a scale of 2 and a unit timestep. -/
theorem claim_C9_witness :
    (({bodyCcdVel with
        linvel := Vec2.smul 2 bodyCcdVel.linvel}).update_ccd_active_flag 1
      false).is_ccd_active = true :=
  claim_C9_amended bodyCcdVel 2 1 (by norm_num) (by norm_num) (by
    have h1 : bodyCcdVel.is_moving_fast 1 false := by
      unfold RigidBody.is_moving_fast bodyCcdVel RigidBody.max_point_velocity
      norm_num [RigidBody.new, RigidBody.is_dynamic, Vec2.norm, Vec2.normSq,
        Real.sqrt_one]
    unfold RigidBody.update_ccd_active_flag
    rw [if_pos ⟨by simp [RigidBody.is_ccd_enabled, bodyCcdVel], h1⟩]
    simp [RigidBody.is_ccd_active])

/-- C2 counterexample: a coincident contact pair (two equal world points)
with penetration 1 passes the `sqdist < target_dist * target_dist` guard of
`solve_point_point`, yet the point distance used as a divisor is exactly
zero — the guard does not prevent the division by zero. -/
theorem claim_C2_counterexample :
    PositionGroundConstraint.pp_sqdist Iso2.identity ctCoincident <
      PositionGroundConstraint.target_dist 0 ctCoincident *
        PositionGroundConstraint.target_dist 0 ctCoincident ∧
    PositionGroundConstraint.pp_dist Iso2.identity ctCoincident = 0 := by
  unfold PositionGroundConstraint.pp_dist PositionGroundConstraint.pp_sqdist
    PositionGroundConstraint.dpos PositionGroundConstraint.world_p2
    PositionGroundConstraint.target_dist ctCoincident Iso2.identity Iso2.apply
  norm_num [rotApply, Vec2.add_def, Vec2.sub_def, Vec2.normSq, Real.sqrt_zero]

/-- C2 amended: under the `sqdist < target_dist * target_dist` guard of
`solve_point_point`, the point distance is strictly below the absolute
value of the target distance (so a correction fires only within
`|target_dist|`); the point-distance divisor is non-zero whenever the two
world points are distinct, and the effective-mass denominator is positive
whenever the dynamic side's inverse mass is strictly positive (with the
nonnegative squared inverse inertia produced by generation). -/
theorem claim_C2_amended (c : PositionGroundConstraint) (allowed_err : ℝ)
    (pos2 : Iso2) (ct : Contact)
    (hguard : PositionGroundConstraint.pp_sqdist pos2 ct <
      PositionGroundConstraint.target_dist allowed_err ct *
        PositionGroundConstraint.target_dist allowed_err ct)
    (hii : 0 ≤ c.ii2) (him : 0 < c.im2) :
    PositionGroundConstraint.pp_dist pos2 ct <
      |PositionGroundConstraint.target_dist allowed_err ct| ∧
    (PositionGroundConstraint.dpos pos2 ct ≠ ⟨0, 0⟩ →
      0 < PositionGroundConstraint.pp_dist pos2 ct) ∧
    0 < PositionGroundConstraint.pp_inv_r c pos2 ct := by
  refine ⟨?_, ?_, ?_⟩
  · unfold PositionGroundConstraint.pp_dist
    have h1 : PositionGroundConstraint.pp_sqdist pos2 ct <
        PositionGroundConstraint.target_dist allowed_err ct ^ 2 := by
      nlinarith [hguard]
    calc Real.sqrt (PositionGroundConstraint.pp_sqdist pos2 ct)
        < Real.sqrt (PositionGroundConstraint.target_dist allowed_err ct ^ 2) :=
          Real.sqrt_lt_sqrt (Vec2.normSq_nonneg _) h1
      _ = |PositionGroundConstraint.target_dist allowed_err ct| :=
          Real.sqrt_sq_eq_abs _
  · intro hne
    unfold PositionGroundConstraint.pp_dist
    apply Real.sqrt_pos.mpr
    rcases lt_or_eq_of_le
        (Vec2.normSq_nonneg (PositionGroundConstraint.dpos pos2 ct)) with h | h
    · exact h
    · exact absurd ((Vec2.normSq_eq_zero_iff _).mp h.symm) hne
  · unfold PositionGroundConstraint.pp_inv_r
    nlinarith [sq_nonneg (PositionGroundConstraint.pp_gcross pos2 ct),
      mul_nonneg hii (sq_nonneg (PositionGroundConstraint.pp_gcross pos2 ct))]

/-- Witness for C2 at a concrete penetrating contact with distinct world
points and a unit-mass constraint. -/
theorem claim_C2_witness :
    PositionGroundConstraint.pp_dist Iso2.identity ctOffset <
      |PositionGroundConstraint.target_dist 0 ctOffset| ∧
    0 < PositionGroundConstraint.pp_dist Iso2.identity ctOffset ∧
    0 < PositionGroundConstraint.pp_inv_r cstPenetrating Iso2.identity
      ctOffset := by
  have h := claim_C2_amended cstPenetrating 0 Iso2.identity ctOffset
    (by
      unfold PositionGroundConstraint.pp_sqdist PositionGroundConstraint.dpos
        PositionGroundConstraint.world_p2 PositionGroundConstraint.target_dist
        ctOffset Iso2.identity Iso2.apply
      norm_num [rotApply, Vec2.add_def, Vec2.sub_def, Vec2.normSq,
        Real.cos_zero, Real.sin_zero])
    (by norm_num [cstPenetrating]) (by norm_num [cstPenetrating])
  refine ⟨h.1, h.2.1 (by
    unfold PositionGroundConstraint.dpos PositionGroundConstraint.world_p2
      ctOffset Iso2.identity Iso2.apply
    norm_num [rotApply, Vec2.add_def, Vec2.sub_def, Vec2.mk.injEq,
      Real.cos_zero, Real.sin_zero]), h.2.2⟩

/-- C3 counterexample: a single separated point-point contact (signed
distance `+10`, so a negative target distance) passes the squared-distance
guard, and the positive correction `(dist - target_dist) * erp = 11` is not
clamped by `max_linear_correction = 1`: one `solve_point_point` call moves
the translation by 11, far beyond `max_linear_correction`. -/
theorem claim_C3_counterexample :
    cstSeparated.max_linear_correction <
      ((cstSeparated.solve_point_point paramsZeroErr Iso2.identity).translation
        - Iso2.identity.translation).norm := by
  have h121 : Real.sqrt 121 = 11 := by
    rw [show (121:ℝ) = 11 ^ 2 by norm_num,
      Real.sqrt_sq (by norm_num : (0:ℝ) ≤ 11)]
  unfold cstSeparated paramsZeroErr PositionGroundConstraint.solve_point_point
    PositionGroundConstraint.solve_point_point_step
    PositionGroundConstraint.pp_impulse PositionGroundConstraint.pp_err
    PositionGroundConstraint.pp_inv_r PositionGroundConstraint.pp_gcross
    PositionGroundConstraint.pp_normal PositionGroundConstraint.pp_dist
    PositionGroundConstraint.pp_sqdist PositionGroundConstraint.dpos
    PositionGroundConstraint.world_p2 PositionGroundConstraint.target_dist
    Iso2.identity Iso2.apply
  norm_num [List.foldl, rotApply, Vec2.add_def, Vec2.sub_def, Vec2.smul,
    Vec2.cross2, Vec2.normSq, Vec2.norm, Real.cos_zero, Real.sin_zero,
    Real.sqrt_one, max_def, h121]

/-- C3 amended: with a single contact, nonnegative `erp` and
`max_linear_correction`, a strictly positive inverse mass, a nonnegative
squared inverse inertia, and a unit contact normal, one `solve_plane_point`
call translates the tentative pose by at most `max_linear_correction`; the
same bound holds for `solve_point_point` provided the contact's target
distance is nonnegative (for a negative target distance the positive
correction is unclamped and the bound can fail). -/
theorem claim_C3_amended (c : PositionGroundConstraint)
    (params : IntegrationParameters) (pos2 : Iso2) (ct : Contact)
    (hconts : c.contacts = [ct]) (herp : 0 ≤ c.erp)
    (hmlc : 0 ≤ c.max_linear_correction) (him : 0 < c.im2) (hii : 0 ≤ c.ii2)
    (hn : c.n1.normSq = 1) :
    ((c.solve_plane_point params pos2).translation - pos2.translation).norm
      ≤ c.max_linear_correction ∧
    (0 ≤ PositionGroundConstraint.target_dist params.allowed_linear_error ct →
      ((c.solve_point_point params pos2).translation - pos2.translation).norm
        ≤ c.max_linear_correction) := by
  have hn1 : c.n1.norm = 1 := by
    unfold Vec2.norm
    rw [hn]
    exact Real.sqrt_one
  constructor
  · have hsingle : c.solve_plane_point params pos2
        = PositionGroundConstraint.solve_plane_point_step c
            params.allowed_linear_error pos2 ct := by
      unfold PositionGroundConstraint.solve_plane_point
      rw [hconts]
      rfl
    rw [hsingle]
    unfold PositionGroundConstraint.solve_plane_point_step
    by_cases hg : PositionGroundConstraint.pl_dist c pos2 ct <
        PositionGroundConstraint.target_dist params.allowed_linear_error ct
    · rw [if_pos hg]
      show ((Vec2.smul (-PositionGroundConstraint.pl_impulse c
          params.allowed_linear_error pos2 ct * c.im2) c.n1 + pos2.translation)
          - pos2.translation).norm ≤ c.max_linear_correction
      rw [Vec2.add_sub_cancel'', Vec2.norm_smul_abs, hn1, mul_one]
      have herr2 : PositionGroundConstraint.pl_err c
          params.allowed_linear_error pos2 ct ≤ 0 := by
        unfold PositionGroundConstraint.pl_err
        apply max_le _ (by linarith)
        nlinarith [hg]
      have herr1 : -c.max_linear_correction ≤
          PositionGroundConstraint.pl_err c params.allowed_linear_error
            pos2 ct := le_max_right _ _
      have hinvr : c.im2 ≤ PositionGroundConstraint.pl_inv_r c pos2 ct := by
        unfold PositionGroundConstraint.pl_inv_r
        nlinarith [mul_nonneg hii (sq_nonneg
          (PositionGroundConstraint.pl_gcross c pos2 ct))]
      have hbound := impulse_mag_le herr1 herr2 him hinvr
      unfold PositionGroundConstraint.pl_impulse
      exact hbound
    · rw [if_neg hg, Vec2.sub_self', Vec2.norm_zero']
      exact hmlc
  · intro htarget
    have hsingle : c.solve_point_point params pos2
        = PositionGroundConstraint.solve_point_point_step c
            params.allowed_linear_error pos2 ct := by
      unfold PositionGroundConstraint.solve_point_point
      rw [hconts]
      rfl
    rw [hsingle]
    unfold PositionGroundConstraint.solve_point_point_step
    by_cases hg : PositionGroundConstraint.pp_sqdist pos2 ct <
        PositionGroundConstraint.target_dist params.allowed_linear_error ct *
          PositionGroundConstraint.target_dist params.allowed_linear_error ct
    · rw [if_pos hg]
      show ((Vec2.smul (-PositionGroundConstraint.pp_impulse c
          params.allowed_linear_error pos2 ct * c.im2)
          (PositionGroundConstraint.pp_normal pos2 ct) + pos2.translation)
          - pos2.translation).norm ≤ c.max_linear_correction
      rw [Vec2.add_sub_cancel'', Vec2.norm_smul_abs]
      have hdlt : PositionGroundConstraint.pp_dist pos2 ct <
          PositionGroundConstraint.target_dist params.allowed_linear_error
            ct := by
        have h1 : PositionGroundConstraint.pp_sqdist pos2 ct <
            PositionGroundConstraint.target_dist params.allowed_linear_error
              ct ^ 2 := by nlinarith [hg]
        calc PositionGroundConstraint.pp_dist pos2 ct
            < Real.sqrt (PositionGroundConstraint.target_dist
                params.allowed_linear_error ct ^ 2) :=
              Real.sqrt_lt_sqrt (Vec2.normSq_nonneg _) h1
          _ = |PositionGroundConstraint.target_dist
                params.allowed_linear_error ct| := Real.sqrt_sq_eq_abs _
          _ = PositionGroundConstraint.target_dist
                params.allowed_linear_error ct := abs_of_nonneg htarget
      have herr2 : PositionGroundConstraint.pp_err c
          params.allowed_linear_error pos2 ct ≤ 0 := by
        unfold PositionGroundConstraint.pp_err
        apply max_le _ (by linarith)
        nlinarith [hdlt]
      have herr1 : -c.max_linear_correction ≤
          PositionGroundConstraint.pp_err c params.allowed_linear_error
            pos2 ct := le_max_right _ _
      have hinvr : c.im2 ≤ PositionGroundConstraint.pp_inv_r c pos2 ct := by
        unfold PositionGroundConstraint.pp_inv_r
        nlinarith [mul_nonneg hii (sq_nonneg
          (PositionGroundConstraint.pp_gcross pos2 ct))]
      have hbound := impulse_mag_le herr1 herr2 him hinvr
      unfold PositionGroundConstraint.pp_impulse
      calc |(-(PositionGroundConstraint.pp_err c params.allowed_linear_error
                pos2 ct / PositionGroundConstraint.pp_inv_r c pos2 ct) *
              c.im2)| * (PositionGroundConstraint.pp_normal pos2 ct).norm
          ≤ |(-(PositionGroundConstraint.pp_err c params.allowed_linear_error
                pos2 ct / PositionGroundConstraint.pp_inv_r c pos2 ct) *
              c.im2)| * 1 := by
            exact mul_le_mul_of_nonneg_left
              (PositionGroundConstraint.pp_normal_norm_le_one pos2 ct)
              (abs_nonneg _)
        _ = |(-(PositionGroundConstraint.pp_err c params.allowed_linear_error
                pos2 ct / PositionGroundConstraint.pp_inv_r c pos2 ct) *
              c.im2)| := mul_one _
        _ ≤ c.max_linear_correction := hbound
    · rw [if_neg hg, Vec2.sub_self', Vec2.norm_zero']
      exact hmlc

/-- Witness for C3 at the sphere-on-plane constraint (target distance
`1/2 ≥ 0`), with both solver variants bounded by the correction cap 10. -/
theorem claim_C3_witness :
    ((cstSphere.solve_plane_point paramsSphere posSphere).translation
      - posSphere.translation).norm ≤ cstSphere.max_linear_correction ∧
    ((cstSphere.solve_point_point paramsSphere posSphere).translation
      - posSphere.translation).norm ≤ cstSphere.max_linear_correction := by
  have h := claim_C3_amended cstSphere paramsSphere posSphere ctSphere
    (by rfl) (by norm_num [cstSphere]) (by norm_num [cstSphere])
    (by norm_num [cstSphere]) (by norm_num [cstSphere])
    (by norm_num [cstSphere, Vec2.normSq])
  exact ⟨h.1, h.2 (by
    unfold PositionGroundConstraint.target_dist ctSphere paramsSphere
    norm_num)⟩

/-- C4: for a single plane-point contact whose lever arm is parallel to the
contact normal (zero `gcross2`, e.g. a sphere with its center of mass at
its origin on a static half-space), with `erp = 1`,
`allowed_linear_error = 0`, a unit normal, a positive inverse mass, and a
`max_linear_correction` large enough not to clamp, one `solve_plane_point`
call makes the signed separation along the normal exactly the target
distance: the penetration is fully corrected in one pass. -/
theorem claim_C4_plane_point_full_correction (c : PositionGroundConstraint)
    (params : IntegrationParameters) (pos2 : Iso2) (ct : Contact)
    (hconts : c.contacts = [ct]) (herp : c.erp = 1)
    (hae : params.allowed_linear_error = 0) (hn : c.n1.normSq = 1)
    (him : 0 < c.im2)
    (hlever : Vec2.cross2 (PositionGroundConstraint.world_p2 pos2 ct
      - pos2.translation) c.n1 = 0)
    (hguard : PositionGroundConstraint.pl_dist c pos2 ct <
      PositionGroundConstraint.target_dist params.allowed_linear_error ct)
    (hclamp : PositionGroundConstraint.target_dist
        params.allowed_linear_error ct
      - PositionGroundConstraint.pl_dist c pos2 ct
      ≤ c.max_linear_correction) :
    PositionGroundConstraint.pl_dist c (c.solve_plane_point params pos2) ct
      = PositionGroundConstraint.target_dist params.allowed_linear_error ct := by
  have hsingle : c.solve_plane_point params pos2
      = PositionGroundConstraint.solve_plane_point_step c
          params.allowed_linear_error pos2 ct := by
    unfold PositionGroundConstraint.solve_plane_point
    rw [hconts]
    rfl
  have hgcross : PositionGroundConstraint.pl_gcross c pos2 ct = 0 := by
    unfold PositionGroundConstraint.pl_gcross
    rw [hlever]
    ring
  have hinvr : PositionGroundConstraint.pl_inv_r c pos2 ct = c.im2 := by
    unfold PositionGroundConstraint.pl_inv_r
    rw [hgcross]
    ring
  have herr : PositionGroundConstraint.pl_err c params.allowed_linear_error
      pos2 ct = PositionGroundConstraint.pl_dist c pos2 ct
        - PositionGroundConstraint.target_dist params.allowed_linear_error
            ct := by
    unfold PositionGroundConstraint.pl_err
    rw [herp, mul_one]
    exact max_eq_left (by linarith)
  have hk : -PositionGroundConstraint.pl_impulse c params.allowed_linear_error
      pos2 ct * c.im2
      = PositionGroundConstraint.target_dist params.allowed_linear_error ct
        - PositionGroundConstraint.pl_dist c pos2 ct := by
    unfold PositionGroundConstraint.pl_impulse
    rw [herr, hinvr]
    field_simp
  have hstep_eq : PositionGroundConstraint.solve_plane_point_step c
      params.allowed_linear_error pos2 ct
      = ⟨pos2.rotation,
          Vec2.smul (PositionGroundConstraint.target_dist
              params.allowed_linear_error ct
            - PositionGroundConstraint.pl_dist c pos2 ct) c.n1
          + pos2.translation⟩ := by
    unfold PositionGroundConstraint.solve_plane_point_step
    rw [if_pos hguard]
    congr 1
    · rw [hgcross]
      ring
    · rw [hk]
  rw [hsingle, hstep_eq, PositionGroundConstraint.pl_dist_shift, hn, mul_one,
    show (⟨pos2.rotation, pos2.translation⟩ : Iso2) = pos2 from rfl]
  ring

/-- Witness for C4: the unit-mass sphere overlapping the plane by `1/2`;
after one `solve_plane_point` call the signed separation equals the
target `1/2`. -/
theorem claim_C4_witness :
    PositionGroundConstraint.pl_dist cstSphere
      (cstSphere.solve_plane_point paramsSphere posSphere) ctSphere
      = PositionGroundConstraint.target_dist
          paramsSphere.allowed_linear_error ctSphere :=
  claim_C4_plane_point_full_correction cstSphere paramsSphere posSphere
    ctSphere (by rfl) (by norm_num [cstSphere])
    (by norm_num [paramsSphere]) (by norm_num [cstSphere, Vec2.normSq])
    (by norm_num [cstSphere])
    (by
      unfold PositionGroundConstraint.world_p2 ctSphere posSphere cstSphere
        Iso2.apply
      norm_num [rotApply, Vec2.add_def, Vec2.sub_def, Vec2.cross2,
        Real.cos_zero, Real.sin_zero])
    (by
      unfold PositionGroundConstraint.pl_dist PositionGroundConstraint.dpos
        PositionGroundConstraint.world_p2 PositionGroundConstraint.target_dist
        ctSphere posSphere cstSphere paramsSphere Iso2.apply
      norm_num [rotApply, Vec2.add_def, Vec2.sub_def, Vec2.dot,
        Real.cos_zero, Real.sin_zero])
    (by
      unfold PositionGroundConstraint.pl_dist PositionGroundConstraint.dpos
        PositionGroundConstraint.world_p2 PositionGroundConstraint.target_dist
        ctSphere posSphere cstSphere paramsSphere Iso2.apply
      norm_num [rotApply, Vec2.add_def, Vec2.sub_def, Vec2.dot,
        Real.cos_zero, Real.sin_zero])

/-- C1 counterexample: for a body whose world center of mass is at `(1, 0)`
and whose angular velocity is `π`, integrating over `dt = 1` and then
calling `compute_velocity_from_next_position` with `inv_dt = 1` yields the
linear velocity `(2, 0)` instead of the original `(0, 0)`: the recovered
linear velocity is off by `(I - R(ω·dt))·com`, which is not a
floating-point-tolerance error. -/
theorem claim_C1_counterexample :
    (RigidBody.compute_velocity_from_next_position
      (bodyRoundTrip.integrate_next_position 1) (1 / 1)).linvel
      ≠ bodyRoundTrip.linvel := by
  have hiv : (bodyRoundTrip.integrate_velocity 1).translation = ⟨2, 0⟩ := by
    unfold RigidBody.integrate_velocity bodyRoundTrip Iso2.ofTranslation
      Iso2.comp Iso2.inverse Iso2.isoNew Iso2.apply
    norm_num [RigidBody.new, MassProperties.zero, rotApply, Vec2.add_def,
      Vec2.neg_def, Vec2.smul, Real.cos_zero, Real.sin_zero, Real.cos_pi,
      Real.sin_pi, Vec2.mk.injEq]
  have hlin : (RigidBody.compute_velocity_from_next_position
      (bodyRoundTrip.integrate_next_position 1) (1 / 1)).linvel = ⟨2, 0⟩ := by
    show Vec2.smul (1 / 1) (Iso2.comp
      (Iso2.comp (bodyRoundTrip.integrate_velocity 1) bodyRoundTrip.position)
      (Iso2.inverse bodyRoundTrip.position)).translation = ⟨2, 0⟩
    rw [Iso2.comp_comp_inverse, hiv]
    norm_num [Vec2.smul, Vec2.mk.injEq]
  intro hcontra
  rw [hlin] at hcontra
  have hzero : bodyRoundTrip.linvel = ⟨0, 0⟩ := by
    simp [bodyRoundTrip, RigidBody.new]
  rw [hzero] at hcontra
  simp only [Vec2.mk.injEq] at hcontra
  norm_num at hcontra

/-- C1 amended: the round trip
`compute_velocity_from_next_position (1/dt) ∘ integrate_next_position dt`
reproduces the original velocities exactly (over the reals) provided
`dt ≠ 0`, the world center of mass is at the world origin, and
`angvel * dt` lies in `(-π, π]` (the range of `UnitComplex::angle()`); with
a center of mass away from the origin and a non-trivial rotation, the
recovered linear velocity differs by `(I - R(ω·dt))·com / dt`. -/
theorem claim_C1_amended (rb : RigidBody) (dt : ℝ) (hdt : dt ≠ 0)
    (hcom : rb.position.apply rb.mass_properties.local_com = ⟨0, 0⟩)
    (h1 : -π < rb.angvel * dt) (h2 : rb.angvel * dt ≤ π) :
    (RigidBody.compute_velocity_from_next_position
      (rb.integrate_next_position dt) (1 / dt)).linvel = rb.linvel ∧
    (RigidBody.compute_velocity_from_next_position
      (rb.integrate_next_position dt) (1 / dt)).angvel = rb.angvel := by
  have hdpos : Iso2.comp (Iso2.comp (rb.integrate_velocity dt) rb.position)
      (Iso2.inverse rb.position) = ⟨rb.angvel * dt, Vec2.smul dt rb.linvel⟩ := by
    rw [Iso2.comp_comp_inverse, rb.integrate_velocity_com_zero dt hcom]
  constructor
  · show Vec2.smul (1 / dt) (Iso2.comp
      (Iso2.comp (rb.integrate_velocity dt) rb.position)
      (Iso2.inverse rb.position)).translation = rb.linvel
    rw [hdpos]
    exact Vec2.smul_one_div_smul dt hdt rb.linvel
  · show angleRep (Iso2.comp
      (Iso2.comp (rb.integrate_velocity dt) rb.position)
      (Iso2.inverse rb.position)).rotation * (1 / dt) = rb.angvel
    rw [hdpos]
    show angleRep (rb.angvel * dt) * (1 / dt) = rb.angvel
    rw [angleRep_eq_self h1 h2]
    field_simp

/-- Witness for C1 at a body with the center of mass at the origin, linear
velocity `(2, 3)`, angular velocity `1`, and `dt = 1`. -/
theorem claim_C1_witness :
    (RigidBody.compute_velocity_from_next_position
      (bodyRoundTripOk.integrate_next_position 1) (1 / 1)).linvel
        = bodyRoundTripOk.linvel ∧
    (RigidBody.compute_velocity_from_next_position
      (bodyRoundTripOk.integrate_next_position 1) (1 / 1)).angvel
        = bodyRoundTripOk.angvel :=
  claim_C1_amended bodyRoundTripOk 1 (by norm_num)
    (by
      unfold bodyRoundTripOk Iso2.apply
      norm_num [RigidBody.new, MassProperties.zero, Iso2.identity, rotApply,
        Vec2.add_def, Vec2.mk.injEq])
    (by
      simp only [bodyRoundTripOk]
      nlinarith [Real.pi_gt_three])
    (by
      simp only [bodyRoundTripOk]
      nlinarith [Real.pi_gt_three])

end Rapier
